import Mathlib

/-!
Shallow embedding of the earnalliance Go client library
(`client.go`, `identifier.go`, `builder.go`): the queue and batch
scheduler, the flush cooldown state machine, the bounded drain, the
response interpretation, the identifier JSON encoding and trait merging.

Modelling conventions:
* Time instants are naturals; `time.Since(lastFlush) >= cooldown`
  becomes `flushCooldown ≤ now - lastFlush`.
* The network is a parameter: each drain receives the outcome its
  `send` call would produce (`Except SendError Unit`), which is sound
  because the drained payload is fixed before the call is issued.
  The trace of issued send payloads is recorded in `sent`.
* The error channel is an accumulating list (`errors`), active when
  `hasErrorChan` is set, mirroring `c.errorChan != nil`.
* Go maps (`Traits`, decoded response bodies) are association lists
  with Go-map lookup/insert semantics.
-/

/-- Go `any` values as they occur in traits and decoded JSON response
bodies: the client only copies trait values, and the response check only
distinguishes strings from everything else. -/
inductive GoAny where
  | str (s : String)
  | int (n : Int)
deriving DecidableEq

/-- `Traits map[string]any`, modelled as an association list carrying
Go-map semantics. -/
abbrev Traits := List (String × GoAny)

/-- Go map read `m[k]`: first matching key (keys of a real Go map are
distinct, so the first match is the match). -/
def mapLookup {α : Type} : List (String × α) → String → Option α
  | [], _ => none
  | (k, v) :: rest, key => if k = key then some v else mapLookup rest key

/-- Go map write `m[k] = v`: replace the binding if the key is present,
otherwise add it. -/
def mapInsert {α : Type} : List (String × α) → String → α → List (String × α)
  | [], k, v => [(k, v)]
  | (k', v') :: rest, k, v =>
    if k' = k then (k, v) :: rest else (k', v') :: mapInsert rest k v

/-- Keys of an association list. -/
def mapKeys {α : Type} (l : List (String × α)) : List String :=
  l.map Prod.fst

/-- `combineTraits` from client.go: copy `a` into a fresh map, then copy
`b` over it, so `b`'s value wins for any shared key. -/
def combineTraits (a b : Traits) : Traits :=
  let n := a.foldl (fun n kv => mapInsert n kv.1 kv.2) []
  b.foldl (fun n kv => mapInsert n kv.1 kv.2) n

/-- `type Identifier string` from identifier.go. -/
abbrev Identifier := String

/-- `Identifier.MarshalJSON` from identifier.go: `null` for the empty
string, otherwise the string wrapped in double quotes.  Note that the
`Identifiers` struct below declares its fields as `*string`, not
`*Identifier`, so this method is never invoked when an identifier
record is serialized for a payload. -/
def Identifier.marshalJSON (s : Identifier) : String :=
  if s = "" then "null" else "\"" ++ s ++ "\""

/-- Lowercase hexadecimal digit, as used by encoding/json's escaper. -/
def hexDigit (n : Nat) : Char :=
  if n < 10 then Char.ofNat (48 + n) else Char.ofNat (87 + n)

/-- encoding/json's per-character string escaping (escapeHTML default):
quote, backslash, newline, carriage return and tab get two-character
escapes, other control characters and the HTML characters get
six-character escapes, everything else passes through. -/
def goEncodeChar (c : Char) : List Char :=
  if c = '"' then ['\\', '"']
  else if c = '\\' then ['\\', '\\']
  else if c.toNat = 10 then ['\\', 'n']
  else if c.toNat = 13 then ['\\', 'r']
  else if c.toNat = 9 then ['\\', 't']
  else if c.toNat < 32 then
    ['\\', 'u', '0', '0', hexDigit (c.toNat / 16), hexDigit (c.toNat % 16)]
  else if c = '<' then ['\\', 'u', '0', '0', '3', 'c']
  else if c = '>' then ['\\', 'u', '0', '0', '3', 'e']
  else if c = '&' then ['\\', 'u', '0', '0', '2', '6']
  else [c]

/-- encoding/json's encoding of a Go string value: the escaped
characters wrapped in double quotes.  This is the encoder that runs on
the `*string` identifier fields. -/
def goEncodeString (s : String) : String :=
  "\"" ++ String.mk (s.toList.map goEncodeChar).flatten ++ "\""

/-- The `Identifiers` struct: seven optional identifier fields, declared
`*string` in client.go (nil = absent), not `*Identifier`.  Field
names follow the Go struct (including the `TwitterIdD` typo); the JSON
tags are the lowercase names used in `marshalFields`. -/
structure Identifiers where
  AppleID : Option String
  DiscordID : Option String
  Email : Option String
  EpicGamesID : Option String
  SteamID : Option String
  TwitterIdD : Option String
  WalletAddress : Option String
deriving DecidableEq

/-- `Identifiers{}`: the Go zero value, every field nil. -/
def emptyIdentifiers : Identifiers :=
  ⟨none, none, none, none, none, none, none⟩

/-- JSON object fields emitted by encoding/json for an `Identifiers`
value: each field has the `omitempty` tag, so a nil pointer is omitted
entirely; a non-nil pointer contributes its tag with the standard
JSON string encoding of the pointed-to string — the fields are
`*string`, so `Identifier.MarshalJSON` plays no part here. -/
def Identifiers.marshalFields (i : Identifiers) : List (String × String) :=
  (match i.AppleID with
   | some v => [("appleId", goEncodeString v)]
   | none => []) ++
  (match i.DiscordID with
   | some v => [("discordId", goEncodeString v)]
   | none => []) ++
  (match i.Email with
   | some v => [("email", goEncodeString v)]
   | none => []) ++
  (match i.EpicGamesID with
   | some v => [("epicGamesId", goEncodeString v)]
   | none => []) ++
  (match i.SteamID with
   | some v => [("steamId", goEncodeString v)]
   | none => []) ++
  (match i.TwitterIdD with
   | some v => [("twitterId", goEncodeString v)]
   | none => []) ++
  (match i.WalletAddress with
   | some v => [("walletAddress", goEncodeString v)]
   | none => [])

/-- The `event` struct from client.go.  `time` is the preformatted
RFC3339 string. -/
structure event where
  userId : String
  time : String
  eventName : String
  groupId : String
  traits : Traits
  value : Option Int
deriving DecidableEq

/-- The `identifier` struct: a userId plus an embedded `Identifiers`. -/
structure identifier where
  userId : String
  identifiers : Identifiers
deriving DecidableEq

/-- Failure modes of a drain's serialize/sign/send pipeline.
`serverError` and `unexpectedResponse` are produced by
`interpretResponse`; `httpFailure` stands for the remaining wrapped
failures (marshal, sign, request build, transport, body decode). -/
inductive SendError where
  | serverError (s : String)
  | unexpectedResponse (m : List (String × GoAny))
  | httpFailure (s : String)
deriving DecidableEq

/-- The mutable runtime state of `Client`, plus the observables used by
the model: the trace of send payloads (`sent`), the error-channel sink
(`errors` / `hasErrorChan`), and the shutdown flag (`stopped`, set when
`stopBatchHandler` is signalled). `flushWaiting` is the pending deferred
timer's fire instant, `none` when no timer is outstanding. -/
structure ClientState where
  batchSize : Nat
  flushCooldown : Nat
  hasErrorChan : Bool
  lastFlush : Nat
  flushWaiting : Option Nat
  eventQueue : List event
  identifierQueue : List identifier
  sent : List (List identifier × List event)
  errors : List SendError
  stopped : Bool
deriving DecidableEq

/-- `Client.queueSize`: combined length of both queues (callers hold the
queue lock). -/
def queueSize (s : ClientState) : Nat :=
  s.eventQueue.length + s.identifierQueue.length

/-- `Client.process`: under the queue lock, take identifiers from the
front up to `batchSize`, then events filling the remainder, and truncate
the queues to the suffixes; if nothing was taken, return nil without a
network call, otherwise record the payload as sent and return the send
outcome.  Returns (new state, drained identifiers, drained events,
result). -/
def process (s : ClientState) (sr : Except SendError Unit) :
    ClientState × List identifier × List event × Except SendError Unit :=
  let identifiers := s.identifierQueue.take s.batchSize
  let events := s.eventQueue.take (s.batchSize - identifiers.length)
  let s' := { s with
    identifierQueue := s.identifierQueue.drop identifiers.length,
    eventQueue := s.eventQueue.drop events.length }
  if events.isEmpty && identifiers.isEmpty then
    (s', identifiers, events, Except.ok ())
  else
    ({ s' with sent := s'.sent ++ [(identifiers, events)] },
      identifiers, events, sr)

/-- The recurring Go idiom `if err := ...; err != nil && c.errorChan !=
nil` around asynchronous flush paths: push the error onto the channel
when one is configured, otherwise drop it. -/
def routeError (s : ClientState) (r : Except SendError Unit) : ClientState :=
  match r with
  | Except.error e =>
    if s.hasErrorChan then { s with errors := s.errors ++ [e] } else s
  | Except.ok _ => s

/-- `Client.doProcess`: run `process`, pushing any error onto the error
channel when one is configured. -/
def doProcess (s : ClientState) (sr : Except SendError Unit) : ClientState :=
  match process s sr with
  | (s', _, _, r) => routeError s' r

/-- `Client.Flush` at instant `now`: cooldown elapsed → stamp `lastFlush`
and drain synchronously; cooldown active with a deferred timer pending →
no-op returning nil; otherwise schedule the one-shot timer for the
leftover cooldown and return nil. -/
def flush (s : ClientState) (now : Nat) (sr : Except SendError Unit) :
    ClientState × Except SendError Unit :=
  if s.flushCooldown ≤ now - s.lastFlush then
    match process { s with lastFlush := now } sr with
    | (s', _, _, r) => (s', r)
  else if s.flushWaiting.isSome then
    (s, Except.ok ())
  else
    ({ s with flushWaiting := some (now + (s.flushCooldown - (now - s.lastFlush))) },
      Except.ok ())

/-- Body of the deferred timer's callback (the `time.AfterFunc` closure):
stamp `lastFlush`, clear the timer handle, then `doProcess`.  It runs
only while `flushWaiting` is the pending handle. -/
def flushWaitingFire (s : ClientState) (now : Nat)
    (sr : Except SendError Unit) : ClientState :=
  doProcess { s with lastFlush := now, flushWaiting := none } sr

/-- `Client.appendEvent`: append under the queue lock, then drain
unconditionally via `doProcess` when the combined queue length has
reached `batchSize`. -/
def appendEvent (s : ClientState) (e : event)
    (sr : Except SendError Unit) : ClientState :=
  let s₁ := { s with eventQueue := s.eventQueue ++ [e] }
  if s₁.batchSize ≤ queueSize s₁ then doProcess s₁ sr else s₁

/-- `Client.appendIdentifier`: the identifier-queue counterpart of
`appendEvent`. -/
def appendIdentifier (s : ClientState) (i : identifier)
    (sr : Except SendError Unit) : ClientState :=
  let s₁ := { s with identifierQueue := s.identifierQueue ++ [i] }
  if s₁.batchSize ≤ queueSize s₁ then doProcess s₁ sr else s₁

/-- `Client.Track`: build the event (empty groupId) and append it.
`nowStr` is the preformatted RFC3339 timestamp. -/
def track (s : ClientState) (nowStr userID eventName : String)
    (value : Option Int) (traits : Traits)
    (sr : Except SendError Unit) : ClientState :=
  appendEvent s
    { userId := userID, time := nowStr, eventName := eventName,
      groupId := "", traits := traits, value := value } sr

/-- `Client.StartGame`: a `START_GAME` event without traits or value. -/
def startGame (s : ClientState) (nowStr userID : String)
    (sr : Except SendError Unit) : ClientState :=
  appendEvent s
    { userId := userID, time := nowStr, eventName := "START_GAME",
      groupId := "", traits := [], value := none } sr

/-- The `Round` struct, minus the client back-pointer (passed explicitly
to `Round.track`). -/
structure Round where
  id : String
  traits : Traits
deriving DecidableEq

/-- `Round.Track`: the event carries the round id as groupId and the
round's traits combined with the per-call traits, the per-call value
winning. -/
def Round.track (r : Round) (s : ClientState)
    (nowStr userID eventName : String) (value : Option Int)
    (traits : Traits) (sr : Except SendError Unit) : ClientState :=
  appendEvent s
    { userId := userID, time := nowStr, eventName := eventName,
      groupId := r.id, traits := combineTraits r.traits traits,
      value := value } sr

/-- `Client.SetIdentifiers`: replace a nil `Identifiers` with the zero
value, append the record, then call `Flush`; a Flush error goes to the
error channel when one is configured, never to the caller.  `srCap` is
the send outcome of a capacity drain inside the append, `srFlush` that
of the Flush drain. -/
def setIdentifiers (s : ClientState) (now : Nat) (userID : String)
    (is : Option Identifiers) (srCap srFlush : Except SendError Unit) :
    ClientState :=
  let is' := is.getD emptyIdentifiers
  let s₁ := appendIdentifier s { userId := userID, identifiers := is' } srCap
  match flush s₁ now srFlush with
  | (s₂, r) => routeError s₂ r

/-- `Client.Close`: stop the deferred timer if one is pending (so its
callback never runs) and signal `stopBatchHandler`. -/
def close (s : ClientState) : ClientState :=
  { s with flushWaiting := none, stopped := true }

/-- One wake-up of the `handleBatch` periodic loop: nothing once the
stop signal has been received, otherwise the cooldown-gated `Flush`
with errors routed to the error channel. -/
def handleBatchTick (s : ClientState) (now : Nat)
    (sr : Except SendError Unit) : ClientState :=
  if s.stopped then s
  else
    match flush s now sr with
    | (s', r) => routeError s' r

/-- A sequence of `Flush` calls at the given instants; returns the list
of states after each call and the list of returned results. -/
def flushSeq (s : ClientState) (ts : List Nat) (sr : Except SendError Unit) :
    List ClientState × List (Except SendError Unit) :=
  match ts with
  | [] => ([], [])
  | t :: rest =>
    match flush s t sr with
    | (s₁, r) =>
      match flushSeq s₁ rest sr with
      | (ss, rs) => (s₁ :: ss, r :: rs)

/-- Fallthrough of `Client.send`'s response check, reached when no
`"message": "OK"` string field was found: a string `"error"` field
yields that server message, anything else is an unexpected response. -/
def interpretNotOK (m : List (String × GoAny)) : Except SendError Unit :=
  match mapLookup m "error" with
  | some (GoAny.str s) => Except.error (SendError.serverError s)
  | _ => Except.error (SendError.unexpectedResponse m)

/-- `Client.send`'s interpretation of the decoded JSON response body:
success exactly on a string field `"message"` equal to `"OK"`, otherwise
fall through to `interpretNotOK`. -/
def interpretResponse (m : List (String × GoAny)) : Except SendError Unit :=
  match mapLookup m "message" with
  | some (GoAny.str s) => if s = "OK" then Except.ok () else interpretNotOK m
  | _ => interpretNotOK m

/-- Left-biased choice between two optional values, used to state the
lookup semantics of `combineTraits` (`b`'s binding, else `a`'s). -/
def optOr {α : Type} (a b : Option α) : Option α :=
  match a with
  | some v => some v
  | none => b

/-- Specification-side decoder for the body of a JSON string literal
(the characters after the opening quote): the closing quote must be the
final character, a backslash introduces one of the single-character
escapes, and unescaped quotes or control characters are rejected.
`\uXXXX` escapes are not accepted; none of the statements below involve
them. -/
def jsonStringBody : List Char → Option (List Char)
  | [] => none
  | c :: cs =>
    if c = '"' then
      if cs.isEmpty then some [] else none
    else if c = '\\' then
      match cs with
      | [] => none
      | e :: cs' =>
        match
          (if e = '"' then some '"'
           else if e = '\\' then some '\\'
           else if e = '/' then some '/'
           else if e = 'n' then some (Char.ofNat 10)
           else if e = 't' then some (Char.ofNat 9)
           else if e = 'r' then some (Char.ofNat 13)
           else if e = 'b' then some (Char.ofNat 8)
           else if e = 'f' then some (Char.ofNat 12)
           else none) with
        | some d => (jsonStringBody cs').map (fun l => d :: l)
        | none => none
    else if c.toNat < 32 then none
    else (jsonStringBody cs).map (fun l => c :: l)

/-- Specification-side decoder for a whole JSON string literal: an
opening quote followed by a well-formed body.  `jsonStringDecode out =
some s` says `out` is a JSON string literal encoding `s`. -/
def jsonStringDecode (out : String) : Option String :=
  match out.toList with
  | '"' :: body => (jsonStringBody body).map (fun l => String.mk l)
  | _ => none

/-- A concrete client state used to instantiate theorems with
hypotheses: empty queues, error channel installed, nothing sent. -/
def baseState (bs cd lf : Nat) (fw : Option Nat) : ClientState :=
  { batchSize := bs, flushCooldown := cd, hasErrorChan := true,
    lastFlush := lf, flushWaiting := fw, eventQueue := [],
    identifierQueue := [], sent := [], errors := [], stopped := false }

/-- A concrete event used to instantiate theorems. -/
def sampleEvent : event :=
  { userId := "u1", time := "2026-01-01T00:00:00Z", eventName := "KILL",
    groupId := "", traits := [], value := some 3 }

/-- A concrete identifier record used to instantiate theorems. -/
def sampleIdentifier : identifier :=
  { userId := "u1", identifiers := { emptyIdentifiers with Email := some "x" } }

/-- Dropping as many elements as a `take` returned is dropping the take
count itself. -/
theorem drop_length_take {α : Type} (n : Nat) (l : List α) :
    l.drop ((l.take n).length) = l.drop n := by
  simp only [List.length_take]
  rcases Nat.le_total n l.length with h | h
  · rw [Nat.min_eq_left h]
  · rw [Nat.min_eq_right h, List.drop_eq_nil_of_le h,
      List.drop_eq_nil_of_le (Nat.le_refl _)]

/-- Dropping `min n (length l)` elements is dropping `n`. -/
theorem drop_min_length {α : Type} (n : Nat) (l : List α) :
    l.drop (n ⊓ l.length) = l.drop n := by
  rcases Nat.le_total n l.length with h | h
  · rw [Nat.min_eq_left h]
  · rw [Nat.min_eq_right h, List.drop_eq_nil_of_le h,
      List.drop_eq_nil_of_le (Nat.le_refl _)]

/-- The drained components of `process` are the front segments of the
two queues, identifiers first. -/
theorem process_drained (s : ClientState) (sr : Except SendError Unit) :
    (process s sr).2.1 = s.identifierQueue.take s.batchSize ∧
    (process s sr).2.2.1 =
      s.eventQueue.take (s.batchSize - (s.identifierQueue.take s.batchSize).length) := by
  unfold process
  dsimp only
  split <;> simp

/-- The post-`process` queues are the matching suffixes, independent of
the send outcome; timing fields, error channel and error list are
untouched by `process`. -/
theorem process_state (s : ClientState) (sr : Except SendError Unit) :
    (process s sr).1.identifierQueue = s.identifierQueue.drop s.batchSize ∧
    (process s sr).1.eventQueue =
      s.eventQueue.drop (s.batchSize - (s.identifierQueue.take s.batchSize).length) ∧
    (process s sr).1.lastFlush = s.lastFlush ∧
    (process s sr).1.flushWaiting = s.flushWaiting ∧
    (process s sr).1.errors = s.errors ∧
    (process s sr).1.hasErrorChan = s.hasErrorChan ∧
    (process s sr).1.batchSize = s.batchSize ∧
    (process s sr).1.flushCooldown = s.flushCooldown ∧
    (process s sr).1.stopped = s.stopped := by
  unfold process
  dsimp only
  split <;> simp [drop_min_length]

/-- The state produced by `process` does not depend on the send
outcome. -/
theorem process_state_independent (s : ClientState)
    (sr sr' : Except SendError Unit) :
    (process s sr).1 = (process s sr').1 := by
  unfold process
  dsimp only
  split <;> simp

/-- `doProcess` only adds to the error list on top of the `process`
state: every other field agrees with `process`'s. -/
theorem doProcess_state (s : ClientState) (sr : Except SendError Unit) :
    (doProcess s sr).identifierQueue = (process s sr).1.identifierQueue ∧
    (doProcess s sr).eventQueue = (process s sr).1.eventQueue ∧
    (doProcess s sr).sent = (process s sr).1.sent ∧
    (doProcess s sr).lastFlush = (process s sr).1.lastFlush ∧
    (doProcess s sr).flushWaiting = (process s sr).1.flushWaiting ∧
    (doProcess s sr).batchSize = (process s sr).1.batchSize ∧
    (doProcess s sr).flushCooldown = (process s sr).1.flushCooldown := by
  unfold doProcess
  rcases hp : process s sr with ⟨s', ids, evs, r⟩
  cases r with
  | error e => by_cases hc : s'.hasErrorChan <;> simp [routeError, hc]
  | ok _ => simp [routeError]

/-- With a positive batch size and a nonempty combined queue, `process`
issues a send: it records the drained payload and returns the send
outcome. -/
theorem process_sends (s : ClientState) (sr : Except SendError Unit)
    (hbs : 1 ≤ s.batchSize) (hq : 1 ≤ queueSize s) :
    (process s sr).2.2.2 = sr ∧
    (process s sr).1.sent =
      s.sent ++ [((process s sr).2.1, (process s sr).2.2.1)] := by
  unfold process
  dsimp only
  rw [if_neg]
  · simp
  · intro hcond
    rw [Bool.and_eq_true, List.isEmpty_iff, List.isEmpty_iff] at hcond
    rcases hcond with ⟨hev, hid⟩
    have hid' : s.identifierQueue = [] := by
      rcases List.take_eq_nil_iff.mp hid with h | h
      · omega
      · exact h
    rw [hid'] at hev
    simp only [List.take_nil, List.length_nil, Nat.sub_zero] at hev
    have hev' : s.eventQueue = [] := by
      rcases List.take_eq_nil_iff.mp hev with h | h
      · omega
      · exact h
    rw [queueSize, hid', hev'] at hq
    simp at hq

/-- An errored send is pushed onto the error channel by `doProcess` when
one is configured. -/
theorem doProcess_routes_error (s : ClientState) (err : SendError)
    (hbs : 1 ≤ s.batchSize) (hq : 1 ≤ queueSize s)
    (hc : s.hasErrorChan = true) :
    (doProcess s (Except.error err)).errors = s.errors ++ [err] := by
  unfold doProcess
  rcases hp : process s (Except.error err) with ⟨s', ids, evs, r⟩
  have hr : r = Except.error err := by
    have := (process_sends s (Except.error err) hbs hq).1
    rw [hp] at this
    exact this
  have herr : s'.errors = s.errors := by
    have := (process_state s (Except.error err)).2.2.2.2.1
    rw [hp] at this
    exact this
  have hchan : s'.hasErrorChan = true := by
    have := (process_state s (Except.error err)).2.2.2.2.2.1
    rw [hp] at this
    rw [this, hc]
  subst hr
  simp [routeError, hchan, herr]

/-- `process` on a successful send never reports an error. -/
theorem process_ok_result (s : ClientState) :
    (process s (Except.ok ())).2.2.2 = Except.ok () := by
  unfold process
  dsimp only
  split <;> rfl

/-- A successful send leaves the error channel untouched. -/
theorem doProcess_ok_errors (s : ClientState) :
    (doProcess s (Except.ok ())).errors = s.errors := by
  unfold doProcess
  rcases hp : process s (Except.ok ()) with ⟨s', ids, evs, r⟩
  have herr : s'.errors = s.errors := by
    have := (process_state s (Except.ok ())).2.2.2.2.1
    rw [hp] at this
    exact this
  have hr : r = Except.ok () := by
    have := process_ok_result s
    rw [hp] at this
    exact this
  subst hr
  simpa [routeError] using herr

/-- Flush case 1 (cooldown elapsed): stamp `lastFlush := now` and drain
synchronously, returning the drain's outcome. -/
theorem flush_elapsed (s : ClientState) (now : Nat)
    (sr : Except SendError Unit)
    (h : s.flushCooldown ≤ now - s.lastFlush) :
    flush s now sr =
      ((process { s with lastFlush := now } sr).1,
        (process { s with lastFlush := now } sr).2.2.2) := by
  unfold flush
  rw [if_pos h]

/-- Flush case 3 (cooldown active, deferred flush pending): pure no-op
returning success. -/
theorem flush_pending_noop (s : ClientState) (now : Nat)
    (sr : Except SendError Unit)
    (hcd : now - s.lastFlush < s.flushCooldown)
    (hw : s.flushWaiting.isSome) :
    flush s now sr = (s, Except.ok ()) := by
  unfold flush
  rw [if_neg (by omega), if_pos hw]

/-- Flush case 2 (cooldown active, no deferred flush): schedule the
one-shot timer; it is scheduled to fire exactly at
`lastFlush + flushCooldown` and nothing else changes. -/
theorem flush_schedule (s : ClientState) (now : Nat)
    (sr : Except SendError Unit)
    (hlf : s.lastFlush ≤ now)
    (hcd : now - s.lastFlush < s.flushCooldown)
    (hw : s.flushWaiting = none) :
    flush s now sr =
      ({ s with flushWaiting := some (s.lastFlush + s.flushCooldown) },
        Except.ok ()) := by
  unfold flush
  rw [if_neg (by omega), if_neg (by simp [hw])]
  have harith : now + (s.flushCooldown - (now - s.lastFlush)) =
      s.lastFlush + s.flushCooldown := by omega
  rw [harith]

/-- Appending an event below capacity is a pure append: no drain. -/
theorem appendEvent_below (s : ClientState) (e : event)
    (sr : Except SendError Unit) (h : queueSize s + 1 < s.batchSize) :
    appendEvent s e sr = { s with eventQueue := s.eventQueue ++ [e] } := by
  unfold appendEvent
  dsimp only
  split
  case isTrue hc =>
    exfalso
    simp only [queueSize, List.length_append, List.length_cons,
      List.length_nil] at hc h
    omega
  case isFalse hc => rfl

/-- Appending an identifier below capacity is a pure append: no drain. -/
theorem appendIdentifier_below (s : ClientState) (i : identifier)
    (sr : Except SendError Unit) (h : queueSize s + 1 < s.batchSize) :
    appendIdentifier s i sr =
      { s with identifierQueue := s.identifierQueue ++ [i] } := by
  unfold appendIdentifier
  dsimp only
  split
  case isTrue hc =>
    exfalso
    simp only [queueSize, List.length_append, List.length_cons,
      List.length_nil] at hc h
    omega
  case isFalse hc => rfl

/-- Appending an event at or above capacity drains unconditionally. -/
theorem appendEvent_capacity (s : ClientState) (e : event)
    (sr : Except SendError Unit) (h : s.batchSize ≤ queueSize s + 1) :
    appendEvent s e sr =
      doProcess { s with eventQueue := s.eventQueue ++ [e] } sr := by
  unfold appendEvent
  dsimp only
  split
  case isTrue hc => rfl
  case isFalse hc =>
    exfalso
    simp only [queueSize, List.length_append, List.length_cons,
      List.length_nil] at hc h
    omega

/-- Appending an identifier at or above capacity drains
unconditionally. -/
theorem appendIdentifier_capacity (s : ClientState) (i : identifier)
    (sr : Except SendError Unit) (h : s.batchSize ≤ queueSize s + 1) :
    appendIdentifier s i sr =
      doProcess { s with identifierQueue := s.identifierQueue ++ [i] } sr := by
  unfold appendIdentifier
  dsimp only
  split
  case isTrue hc => rfl
  case isFalse hc =>
    exfalso
    simp only [queueSize, List.length_append, List.length_cons,
      List.length_nil] at hc h
    omega

/-- While a deferred flush is pending and the cooldown stays active,
any sequence of `Flush` calls leaves the state untouched and returns
success every time. -/
theorem flushSeq_pending (sr : Except SendError Unit) (ts : List Nat) :
    ∀ (s : ClientState), s.flushWaiting.isSome →
      (∀ t ∈ ts, t - s.lastFlush < s.flushCooldown) →
      flushSeq s ts sr =
        (List.replicate ts.length s, List.replicate ts.length (Except.ok ())) := by
  induction ts with
  | nil => intro s _ _; rfl
  | cons t rest ih =>
    intro s hw hts
    have h1 : flush s t sr = (s, Except.ok ()) :=
      flush_pending_noop s t sr (hts t (List.mem_cons_self t rest)) hw
    have h2 := ih s hw (fun u hu => hts u (List.mem_cons_of_mem t hu))
    simp [flushSeq, h1, h2, List.replicate_succ]

/-- Looking up a key after a Go-map insert: the inserted key maps to the
new value, every other key is unaffected. -/
theorem mapLookup_insert {α : Type} (l : List (String × α)) (k : String)
    (v : α) (key : String) :
    mapLookup (mapInsert l k v) key =
      if k = key then some v else mapLookup l key := by
  induction l with
  | nil =>
    simp only [mapInsert, mapLookup]
  | cons kv rest ih =>
    rcases kv with ⟨k', v'⟩
    by_cases h : k' = k
    · subst h
      simp only [mapInsert, if_pos rfl, mapLookup]
      by_cases hk : k' = key
      · simp [hk]
      · simp [hk]
    · simp only [mapInsert, if_neg h, mapLookup]
      by_cases hk : k' = key
      · subst hk
        have : ¬ (k = k') := fun he => h he.symm
        simp [this]
      · simp [hk, ih]

/-- A key outside an association list's keys looks up to nothing. -/
theorem mapLookup_eq_none {α : Type} (l : List (String × α)) (k : String)
    (h : k ∉ mapKeys l) : mapLookup l k = none := by
  induction l with
  | nil => rfl
  | cons kv rest ih =>
    simp only [mapKeys, List.map_cons, List.mem_cons] at h
    push_neg at h
    simp only [mapLookup]
    rw [if_neg (fun he => h.1 he.symm)]
    exact ih (by intro hm; exact h.2 hm)

/-- Folding Go-map inserts of an association list with distinct keys
over an accumulator: lookups prefer the list's binding over the
accumulator's. -/
theorem mapLookup_foldl_insert {α : Type} (key : String) :
    ∀ (l : List (String × α)) (n : List (String × α)),
      (mapKeys l).Nodup →
      mapLookup (l.foldl (fun acc kv => mapInsert acc kv.1 kv.2) n) key =
        optOr (mapLookup l key) (mapLookup n key) := by
  intro l
  induction l with
  | nil =>
    intro n _
    simp [mapLookup, optOr]
  | cons kv rest ih =>
    intro n hnd
    rcases kv with ⟨k0, v0⟩
    simp only [mapKeys, List.map_cons, List.nodup_cons] at hnd
    have ih' := ih (mapInsert n k0 v0) hnd.2
    simp only [List.foldl_cons] at ih' ⊢
    rw [ih', mapLookup_insert]
    by_cases hk : k0 = key
    · subst hk
      have hnone : mapLookup rest k0 = none :=
        mapLookup_eq_none rest k0 hnd.1
    
      simp [mapLookup, hnone, optOr]
    · simp [mapLookup, hk, optOr]

/-- Lookup characterisation of `combineTraits`: the right-hand map's
binding wins, the left-hand map fills in the rest. -/
theorem combineTraits_lookup (a b : Traits)
    (ha : (mapKeys a).Nodup) (hb : (mapKeys b).Nodup) (k : String) :
    mapLookup (combineTraits a b) k = optOr (mapLookup b k) (mapLookup a k) := by
  unfold combineTraits
  dsimp only
  rw [mapLookup_foldl_insert k b _ hb, mapLookup_foldl_insert k a [] ha]
  cases mapLookup b k <;> cases mapLookup a k <;> simp [optOr, mapLookup]

/-- The fallthrough interpretation never reports success. -/
theorem interpretNotOK_ne_ok (m : List (String × GoAny)) :
    interpretNotOK m ≠ Except.ok () := by
  unfold interpretNotOK
  rcases mapLookup m "error" with _ | w
  · simp
  · cases w <;> simp

/-- The fallthrough with a string `"error"` field: the server's message
is wrapped in the returned failure. -/
theorem interpretNotOK_server (m : List (String × GoAny)) (s : String)
    (he : mapLookup m "error" = some (GoAny.str s)) :
    interpretNotOK m = Except.error (SendError.serverError s) := by
  unfold interpretNotOK
  rw [he]

/-- The fallthrough without a string `"error"` field: unexpected
response. -/
theorem interpretNotOK_unexpected (m : List (String × GoAny))
    (he : ∀ s, mapLookup m "error" ≠ some (GoAny.str s)) :
    interpretNotOK m = Except.error (SendError.unexpectedResponse m) := by
  unfold interpretNotOK
  rcases h : mapLookup m "error" with _ | w
  · rfl
  · cases w with
    | str t => exact absurd h (he t)
    | int n => rfl

/-- `interpretResponse` reduces to a test for the `"message": "OK"`
string field with the fallthrough otherwise. -/
theorem interpretResponse_eq (m : List (String × GoAny)) :
    interpretResponse m =
      if mapLookup m "message" = some (GoAny.str "OK") then Except.ok ()
      else interpretNotOK m := by
  unfold interpretResponse
  rcases hm : mapLookup m "message" with _ | v
  · simp
  · cases v with
    | str s0 =>
      by_cases hs : s0 = "OK"
      · subst hs
        simp
      · simp [hs]
    | int n => simp

/-- C2: every drain removes at most `batchSize` total records from the
fronts of the two pending queues — identifiers first up to the quota,
then events filling the remainder — in FIFO append order, leaving any
excess in place, in order, for the next drain (the original queues are
exactly drained-prefix ++ remaining-suffix). -/
theorem process_bounded_fifo_drain (s : ClientState)
    (sr : Except SendError Unit) :
    (process s sr).2.1 = s.identifierQueue.take s.batchSize ∧
    (process s sr).2.2.1 =
      s.eventQueue.take
        (s.batchSize - (s.identifierQueue.take s.batchSize).length) ∧
    (process s sr).2.1.length + (process s sr).2.2.1.length ≤ s.batchSize ∧
    (process s sr).2.1 ++ (process s sr).1.identifierQueue =
      s.identifierQueue ∧
    (process s sr).2.2.1 ++ (process s sr).1.eventQueue = s.eventQueue := by
  obtain ⟨hid, hev⟩ := process_drained s sr
  obtain ⟨hsid, hsev, _⟩ := process_state s sr
  refine ⟨hid, hev, ?_, ?_, ?_⟩
  · rw [hid, hev]
    have h1 : (s.identifierQueue.take s.batchSize).length ≤ s.batchSize :=
      List.length_take_le _ _
    have h2 : (s.eventQueue.take
        (s.batchSize - (s.identifierQueue.take s.batchSize).length)).length ≤
        s.batchSize - (s.identifierQueue.take s.batchSize).length :=
      List.length_take_le _ _
    omega
  · rw [hid, hsid]
    exact List.take_append_drop s.batchSize s.identifierQueue
  · rw [hev, hsev]
    exact List.take_append_drop _ s.eventQueue

/-- C4: the records a drain removes are gone from the queues before the
network call and are never re-inserted — the post-drain queue state is
exactly the removal's suffixes, identical for a succeeding and a failing
send (at-most-once delivery, no automatic resend). -/
theorem process_no_requeue (s : ClientState)
    (sr sr' : Except SendError Unit) :
    (process s sr).1 = (process s sr').1 ∧
    (process s sr).1.identifierQueue = s.identifierQueue.drop s.batchSize ∧
    (process s sr).1.eventQueue =
      s.eventQueue.drop
        (s.batchSize - (s.identifierQueue.take s.batchSize).length) ∧
    (doProcess s sr).identifierQueue = s.identifierQueue.drop s.batchSize ∧
    (doProcess s sr).eventQueue =
      s.eventQueue.drop
        (s.batchSize - (s.identifierQueue.take s.batchSize).length) := by
  obtain ⟨h1, h2, _⟩ := process_state s sr
  obtain ⟨d1, d2, _⟩ := doProcess_state s sr
  exact ⟨process_state_independent s sr sr', h1, h2,
    d1.trans h1, d2.trans h2⟩

/-- C6: shutdown cancels the deferred-flush timer (so no deferred drain
can fire afterwards), signals the periodic loop to terminate (a tick
after close is a no-op), performs no drain, and leaves both queues and
all other observables unchanged. -/
theorem close_cancels_and_preserves (s : ClientState) (now : Nat)
    (sr : Except SendError Unit) :
    (close s).eventQueue = s.eventQueue ∧
    (close s).identifierQueue = s.identifierQueue ∧
    (close s).sent = s.sent ∧
    (close s).errors = s.errors ∧
    (close s).lastFlush = s.lastFlush ∧
    (close s).flushWaiting = none ∧
    (close s).stopped = true ∧
    handleBatchTick (close s) now sr = close s := by
  refine ⟨rfl, rfl, rfl, rfl, rfl, rfl, rfl, ?_⟩
  unfold handleBatchTick
  have h : (close s).stopped = true := rfl
  rw [if_pos h]

/-- C9: the sender's interpretation of a decoded response body returns
success exactly when a string field `"message"` equals `"OK"`; otherwise
a string `"error"` field yields a failure carrying the server's message,
and any other shape yields the unexpected-response failure.  Being a
total function, it never panics. -/
theorem interpretResponse_cases (m : List (String × GoAny)) :
    (interpretResponse m = Except.ok () ↔
      mapLookup m "message" = some (GoAny.str "OK")) ∧
    (∀ s, mapLookup m "message" ≠ some (GoAny.str "OK") →
      mapLookup m "error" = some (GoAny.str s) →
      interpretResponse m = Except.error (SendError.serverError s)) ∧
    (mapLookup m "message" ≠ some (GoAny.str "OK") →
      (∀ s, mapLookup m "error" ≠ some (GoAny.str s)) →
      interpretResponse m = Except.error (SendError.unexpectedResponse m)) := by
  refine ⟨?_, ?_, ?_⟩
  · rw [interpretResponse_eq]
    by_cases hm : mapLookup m "message" = some (GoAny.str "OK")
    · rw [if_pos hm]
      simp [hm]
    · rw [if_neg hm]
      constructor
      · intro h
        exact absurd h (interpretNotOK_ne_ok m)
      · intro h
        exact absurd h hm
  · intro s hm he
    rw [interpretResponse_eq, if_neg hm]
    exact interpretNotOK_server m s he
  · intro hm he
    rw [interpretResponse_eq, if_neg hm]
    exact interpretNotOK_unexpected m he

/-- Witness for C9 at a concrete error response. -/
theorem interpretResponse_cases_witness :
    (mapLookup [("error", GoAny.str "boom")] "message" ≠
      some (GoAny.str "OK")) ∧
    interpretResponse [("error", GoAny.str "boom")] =
      Except.error (SendError.serverError "boom") := by
  refine ⟨by decide, ?_⟩
  exact (interpretResponse_cases [("error", GoAny.str "boom")]).2.1 "boom"
    (by decide) (by decide)

/-- Error routing touches nothing but the error list. -/
theorem routeError_fields (s : ClientState) (r : Except SendError Unit) :
    (routeError s r).sent = s.sent ∧
    (routeError s r).identifierQueue = s.identifierQueue ∧
    (routeError s r).eventQueue = s.eventQueue ∧
    (routeError s r).lastFlush = s.lastFlush ∧
    (routeError s r).flushWaiting = s.flushWaiting ∧
    (routeError s r).batchSize = s.batchSize ∧
    (routeError s r).flushCooldown = s.flushCooldown ∧
    (routeError s r).hasErrorChan = s.hasErrorChan ∧
    (routeError s r).stopped = s.stopped := by
  cases r with
  | error e => by_cases hc : s.hasErrorChan <;> simp [routeError, hc]
  | ok _ => simp [routeError]

/-- Routing a success is the identity. -/
theorem routeError_ok (s : ClientState) : routeError s (Except.ok ()) = s :=
  rfl

/-- Routing an error with a configured channel appends it. -/
theorem routeError_err (s : ClientState) (e : SendError)
    (hc : s.hasErrorChan = true) :
    (routeError s (Except.error e)).errors = s.errors ++ [e] := by
  simp [routeError, hc]

/-- C7 (code bug in the struct declaration): with the `Identifiers`
fields typed `*string`, encoding/json serializes them —
an absent field is omitted, and a non-empty value is emitted as the
properly escaped JSON string literal encoding it, as claimed; but a
present empty string is emitted as `""`, NOT as the claimed `null`.
The package's own `TestIdentifiersJSON` expects `null` exactly there
(and populates the fields via `IdentifierFrom`, which does not even
type-check against `*string`), the struct's doc comment promises
empty-string removal, and identifier.go's `Identifier.MarshalJSON` —
which does emit `null` for the empty string — is what the tests and
docs assume is in effect: the `*string` field declaration is the slip. -/
theorem identifiers_empty_null_bug :
    Identifiers.marshalFields emptyIdentifiers = [] ∧
    Identifiers.marshalFields { emptyIdentifiers with AppleID := some "normal" } =
      [("appleId", "\"normal\"")] ∧
    jsonStringDecode (goEncodeString "normal") = some "normal" ∧
    goEncodeString "a\"b" = "\"a\\\"b\"" ∧
    jsonStringDecode (goEncodeString "a\"b") = some "a\"b" ∧
    Identifiers.marshalFields { emptyIdentifiers with AppleID := some "" } =
      [("appleId", "\"\"")] ∧
    Identifiers.marshalFields { emptyIdentifiers with AppleID := some "" } ≠
      [("appleId", "null")] ∧
    Identifier.marshalJSON "" = "null" ∧
    Identifier.marshalJSON "normal" = "\"normal\"" := by
  decide

/-- C8: trait merging maps every key to the right-hand map's binding
when present there and to the left-hand map's binding otherwise
(including the spec's three concrete examples), and every event tracked
through a `Round` carries exactly this merge of the round's traits
(left) with the per-call traits (right). -/
theorem combineTraits_right_bias (a b : Traits)
    (ha : (mapKeys a).Nodup) (hb : (mapKeys b).Nodup) :
    (∀ k, mapLookup (combineTraits a b) k =
      optOr (mapLookup b k) (mapLookup a k)) ∧
    combineTraits [] [] = [] ∧
    combineTraits [("a", GoAny.int 1)] [] = [("a", GoAny.int 1)] ∧
    combineTraits [("c", GoAny.int 1)] [("c", GoAny.int 2)] =
      [("c", GoAny.int 2)] ∧
    (∀ (r : Round) (s : ClientState) (nowStr userID eventName : String)
      (value : Option Int) (tr : Traits) (sr : Except SendError Unit),
      queueSize s + 1 < s.batchSize →
      (Round.track r s nowStr userID eventName value tr sr).eventQueue =
        s.eventQueue ++ [{ userId := userID,
                           time := nowStr,
                           eventName := eventName,
                           groupId := r.id,
                           traits := combineTraits r.traits tr,
                           value := value }]) := by
  refine ⟨combineTraits_lookup a b ha hb, by decide, by decide, by decide, ?_⟩
  intro r s nowStr userID eventName value tr sr h
  unfold Round.track
  rw [appendEvent_below _ _ _ h]

/-- Witness for C8 at the spec's right-override example. -/
theorem combineTraits_right_bias_witness :
    (mapKeys [("c", GoAny.int 1)]).Nodup ∧
    (mapKeys [("c", GoAny.int 2)]).Nodup ∧
    mapLookup (combineTraits [("c", GoAny.int 1)] [("c", GoAny.int 2)]) "c" =
      optOr (mapLookup [("c", GoAny.int 2)] "c")
        (mapLookup [("c", GoAny.int 1)] "c") := by
  refine ⟨by decide, by decide, ?_⟩
  exact (combineTraits_right_bias [("c", GoAny.int 1)] [("c", GoAny.int 2)]
    (by decide) (by decide)).1 "c"

/-- C3: appends run through `appendEvent`/`appendIdentifier`
(Track/StartGame/Round.Track construct the event and delegate).  When
the combined queue length after the append is below `batchSize`, the
append is pure — no drain.  At or above `batchSize`, the append performs
an immediate unconditional synchronous drain, bypassing the cooldown
state machine (`lastFlush`/`flushWaiting` untouched), with its error
routed to the error channel instead of being returned. -/
theorem append_capacity_drain (s : ClientState) (e : event)
    (i : identifier) (sr : Except SendError Unit) :
    (queueSize s + 1 < s.batchSize →
      appendEvent s e sr = { s with eventQueue := s.eventQueue ++ [e] } ∧
      appendIdentifier s i sr =
        { s with identifierQueue := s.identifierQueue ++ [i] }) ∧
    (s.batchSize ≤ queueSize s + 1 →
      appendEvent s e sr =
        doProcess { s with eventQueue := s.eventQueue ++ [e] } sr ∧
      appendIdentifier s i sr =
        doProcess { s with identifierQueue := s.identifierQueue ++ [i] } sr ∧
      (appendEvent s e sr).lastFlush = s.lastFlush ∧
      (appendEvent s e sr).flushWaiting = s.flushWaiting ∧
      (appendIdentifier s i sr).lastFlush = s.lastFlush ∧
      (appendIdentifier s i sr).flushWaiting = s.flushWaiting ∧
      (1 ≤ s.batchSize → s.hasErrorChan = true → ∀ err,
        (appendEvent s e (Except.error err)).errors = s.errors ++ [err] ∧
        (appendIdentifier s i (Except.error err)).errors =
          s.errors ++ [err]) ∧
      (appendEvent s e (Except.ok ())).errors = s.errors ∧
      (appendIdentifier s i (Except.ok ())).errors = s.errors) ∧
    (∀ (nowStr userID eventName : String) (value : Option Int)
      (traits : Traits),
      track s nowStr userID eventName value traits sr =
        appendEvent s { userId := userID,
                        time := nowStr,
                        eventName := eventName,
                        groupId := "",
                        traits := traits,
                        value := value } sr) ∧
    (∀ (nowStr userID : String),
      startGame s nowStr userID sr =
        appendEvent s { userId := userID,
                        time := nowStr,
                        eventName := "START_GAME",
                        groupId := "",
                        traits := [],
                        value := none } sr) := by
  refine ⟨fun h => ⟨appendEvent_below s e sr h, appendIdentifier_below s i sr h⟩,
    fun h => ?_, fun _ _ _ _ _ => rfl, fun _ _ => rfl⟩
  have hqe : 1 ≤ queueSize { s with eventQueue := s.eventQueue ++ [e] } := by
    simp only [queueSize, List.length_append, List.length_cons, List.length_nil]
    omega
  have hqi : 1 ≤ queueSize
      { s with identifierQueue := s.identifierQueue ++ [i] } := by
    simp only [queueSize, List.length_append, List.length_cons, List.length_nil]
    omega
  refine ⟨appendEvent_capacity s e sr h, appendIdentifier_capacity s i sr h,
    ?_, ?_, ?_, ?_, ?_, ?_, ?_⟩
  · rw [appendEvent_capacity s e sr h]
    exact ((doProcess_state _ sr).2.2.2.1).trans
      ((process_state _ sr).2.2.1)
  · rw [appendEvent_capacity s e sr h]
    exact ((doProcess_state _ sr).2.2.2.2.1).trans
      ((process_state _ sr).2.2.2.1)
  · rw [appendIdentifier_capacity s i sr h]
    exact ((doProcess_state _ sr).2.2.2.1).trans
      ((process_state _ sr).2.2.1)
  · rw [appendIdentifier_capacity s i sr h]
    exact ((doProcess_state _ sr).2.2.2.2.1).trans
      ((process_state _ sr).2.2.2.1)
  · intro hbs hc err
    constructor
    · rw [appendEvent_capacity s e (Except.error err) h]
      exact doProcess_routes_error _ err hbs hqe hc
    · rw [appendIdentifier_capacity s i (Except.error err) h]
      exact doProcess_routes_error _ err hbs hqi hc
  · rw [appendEvent_capacity s e (Except.ok ()) h]
    exact doProcess_ok_errors _
  · rw [appendIdentifier_capacity s i (Except.ok ()) h]
    exact doProcess_ok_errors _

/-- Witness for C3: with batch size 1 a single Track-style append drains
immediately. -/
theorem append_capacity_drain_witness :
    ((baseState 1 10 0 none).batchSize ≤
      queueSize (baseState 1 10 0 none) + 1) ∧
    appendEvent (baseState 1 10 0 none) sampleEvent (Except.ok ()) =
      doProcess { baseState 1 10 0 none with
                    eventQueue :=
                      (baseState 1 10 0 none).eventQueue ++ [sampleEvent] }
        (Except.ok ()) := by
  refine ⟨by decide, ?_⟩
  exact ((append_capacity_drain (baseState 1 10 0 none) sampleEvent
    sampleIdentifier (Except.ok ())).2.1 (by decide)).1

/-- `SetIdentifiers` always runs the append followed by the
cooldown-gated `Flush`, its outcome routed to the error channel. -/
theorem setIdentifiers_eq (s : ClientState) (now : Nat) (userID : String)
    (is : Option Identifiers) (srCap srFlush : Except SendError Unit) :
    setIdentifiers s now userID is srCap srFlush =
      routeError
        (flush (appendIdentifier s
          { userId := userID, identifiers := is.getD emptyIdentifiers }
          srCap) now srFlush).1
        (flush (appendIdentifier s
          { userId := userID, identifiers := is.getD emptyIdentifiers }
          srCap) now srFlush).2 :=
  rfl

/-- C5: `SetIdentifiers` appends exactly one identifier record and then
always invokes the cooldown-gated Flush path, regardless of the queue
size relative to `batchSize` (stated below capacity, where no
capacity drain can explain the behaviour): with the cooldown elapsed the
appended record is drained immediately; with the cooldown active it
schedules (or defers to) the one-shot timer.  A Flush error is pushed
onto the configured error channel; the function returns no error. -/
theorem setIdentifiers_always_flushes (s : ClientState) (now : Nat)
    (userID : String) (is : Option Identifiers)
    (srCap srFlush : Except SendError Unit)
    (hcap : queueSize s + 1 < s.batchSize) :
    (s.flushCooldown ≤ now - s.lastFlush →
      (setIdentifiers s now userID is srCap srFlush).sent =
        s.sent ++ [(s.identifierQueue ++
          [{ userId := userID, identifiers := is.getD emptyIdentifiers }],
          s.eventQueue)] ∧
      (setIdentifiers s now userID is srCap srFlush).lastFlush = now ∧
      (setIdentifiers s now userID is srCap srFlush).identifierQueue = [] ∧
      (setIdentifiers s now userID is srCap srFlush).eventQueue = [] ∧
      (∀ err, srFlush = Except.error err → s.hasErrorChan = true →
        (setIdentifiers s now userID is srCap srFlush).errors =
          s.errors ++ [err]) ∧
      (srFlush = Except.ok () →
        (setIdentifiers s now userID is srCap srFlush).errors =
          s.errors)) ∧
    (now - s.lastFlush < s.flushCooldown → s.lastFlush ≤ now →
      s.flushWaiting = none →
      setIdentifiers s now userID is srCap srFlush =
        { s with
            identifierQueue := s.identifierQueue ++
              [{ userId := userID,
                 identifiers := is.getD emptyIdentifiers }],
            flushWaiting := some (s.lastFlush + s.flushCooldown) }) ∧
    (now - s.lastFlush < s.flushCooldown → s.flushWaiting.isSome →
      setIdentifiers s now userID is srCap srFlush =
        { s with
            identifierQueue := s.identifierQueue ++
              [{ userId := userID,
                 identifiers := is.getD emptyIdentifiers }] }) := by
  have hbs : 1 ≤ s.batchSize := by
    simp only [queueSize] at hcap
    omega
  have hs₁ := appendIdentifier_below s
    { userId := userID, identifiers := is.getD emptyIdentifiers } srCap hcap
  have hlen1 : (s.identifierQueue ++
      [({ userId := userID,
          identifiers := is.getD emptyIdentifiers } : identifier)]).length ≤
      s.batchSize := by
    simp only [queueSize] at hcap
    simp only [List.length_append, List.length_cons, List.length_nil]
    omega
  have hlen2 : s.eventQueue.length ≤ s.batchSize -
      (s.identifierQueue ++
        [({ userId := userID,
            identifiers := is.getD emptyIdentifiers } : identifier)]).length := by
    simp only [queueSize] at hcap
    simp only [List.length_append, List.length_cons, List.length_nil]
    omega
  rw [setIdentifiers_eq, hs₁]
  refine ⟨?_, ?_, ?_⟩
  · intro hcd
    rw [flush_elapsed
      { s with
          identifierQueue := s.identifierQueue ++
            [{ userId := userID, identifiers := is.getD emptyIdentifiers }] }
      now srFlush hcd]
    dsimp only
    have hq' : 1 ≤ queueSize
        { s with
            lastFlush := now,
            identifierQueue := s.identifierQueue ++
              [{ userId := userID,
                 identifiers := is.getD emptyIdentifiers }] } := by
      simp only [queueSize, List.length_append, List.length_cons,
        List.length_nil]
      omega
    have hsend := process_sends
      { s with
          lastFlush := now,
          identifierQueue := s.identifierQueue ++
            [{ userId := userID, identifiers := is.getD emptyIdentifiers }] }
      srFlush hbs hq'
    have hdr := process_drained
      { s with
          lastFlush := now,
          identifierQueue := s.identifierQueue ++
            [{ userId := userID, identifiers := is.getD emptyIdentifiers }] }
      srFlush
    have hst := process_state
      { s with
          lastFlush := now,
          identifierQueue := s.identifierQueue ++
            [{ userId := userID, identifiers := is.getD emptyIdentifiers }] }
      srFlush
    have hids : (process
        { s with
            lastFlush := now,
            identifierQueue := s.identifierQueue ++
              [{ userId := userID,
                 identifiers := is.getD emptyIdentifiers }] }
        srFlush).2.1 =
        s.identifierQueue ++
          [{ userId := userID, identifiers := is.getD emptyIdentifiers }] := by
      have h := hdr.1
      dsimp only at h
      rw [h]
      exact List.take_of_length_le hlen1
    have hevs : (process
        { s with
            lastFlush := now,
            identifierQueue := s.identifierQueue ++
              [{ userId := userID,
                 identifiers := is.getD emptyIdentifiers }] }
        srFlush).2.2.1 = s.eventQueue := by
      have h := hdr.2
      dsimp only at h
      rw [h, List.take_of_length_le hlen1]
      exact List.take_of_length_le hlen2
    obtain ⟨rf_sent, rf_idq, rf_evq, rf_lf, _⟩ :=
      routeError_fields (process
        { s with
            lastFlush := now,
            identifierQueue := s.identifierQueue ++
              [{ userId := userID,
                 identifiers := is.getD emptyIdentifiers }] } srFlush).1
        (process
          { s with
              lastFlush := now,
              identifierQueue := s.identifierQueue ++
                [{ userId := userID,
                   identifiers := is.getD emptyIdentifiers }] } srFlush).2.2.2
    refine ⟨?_, ?_, ?_, ?_, ?_, ?_⟩
    · rw [rf_sent, hsend.2, hids, hevs]
    · rw [rf_lf, hst.2.2.1]
    · rw [rf_idq, hst.1]
      exact List.drop_eq_nil_of_le hlen1
    · rw [rf_evq, hst.2.1]
      dsimp only
      rw [List.take_of_length_le hlen1]
      exact List.drop_eq_nil_of_le hlen2
    · intro err hsr hec
      subst hsr
      have hcP1 : (process
          { s with
              lastFlush := now,
              identifierQueue := s.identifierQueue ++
                [{ userId := userID,
                   identifiers := is.getD emptyIdentifiers }] }
          (Except.error err)).1.hasErrorChan = true := by
        rw [hst.2.2.2.2.2.1]
        exact hec
      rw [hsend.1, routeError_err _ err hcP1, hst.2.2.2.2.1]
    · intro hok
      subst hok
      rw [hsend.1, routeError_ok, hst.2.2.2.2.1]
  · intro hcd hlf hw
    rw [flush_schedule
      { s with
          identifierQueue := s.identifierQueue ++
            [{ userId := userID, identifiers := is.getD emptyIdentifiers }] }
      now srFlush hlf hcd hw]
    rfl
  · intro hcd hw
    rw [flush_pending_noop
      { s with
          identifierQueue := s.identifierQueue ++
            [{ userId := userID, identifiers := is.getD emptyIdentifiers }] }
      now srFlush hcd hw]
    rfl

/-- Witness for C5: below capacity with the cooldown elapsed, one
SetIdentifiers call drains its own record immediately. -/
theorem setIdentifiers_always_flushes_witness :
    (queueSize (baseState 5 10 0 none) + 1 <
      (baseState 5 10 0 none).batchSize) ∧
    ((baseState 5 10 0 none).flushCooldown ≤
      20 - (baseState 5 10 0 none).lastFlush) ∧
    (setIdentifiers (baseState 5 10 0 none) 20 "u1" none
        (Except.ok ()) (Except.ok ())).sent =
      (baseState 5 10 0 none).sent ++
        [((baseState 5 10 0 none).identifierQueue ++
          [{ userId := "u1",
             identifiers := (none : Option Identifiers).getD
               emptyIdentifiers }],
          (baseState 5 10 0 none).eventQueue)] := by
  refine ⟨by decide, by decide, ?_⟩
  exact ((setIdentifiers_always_flushes (baseState 5 10 0 none) 20 "u1" none
    (Except.ok ()) (Except.ok ()) (by decide)).1 (by decide)).1

/-- C10: calling SetIdentifiers with a nil `Identifiers` pointer is safe
for every user id — the nil is replaced by the zero value, so the call
behaves exactly as with an empty record, appending one identifier entry
carrying that user id with all seven fields absent; being a total
function returning no error, it neither panics nor fails. -/
theorem setIdentifiers_nil_safe (s : ClientState) (now : Nat)
    (userID : String) (srCap srFlush : Except SendError Unit) :
    setIdentifiers s now userID none srCap srFlush =
      setIdentifiers s now userID (some emptyIdentifiers) srCap srFlush ∧
    (queueSize s + 1 < s.batchSize → now - s.lastFlush < s.flushCooldown →
      s.flushWaiting.isSome →
      setIdentifiers s now userID none srCap srFlush =
        { s with
            identifierQueue := s.identifierQueue ++
              [{ userId := userID,
                 identifiers := { AppleID := none, DiscordID := none,
                                  Email := none, EpicGamesID := none,
                                  SteamID := none, TwitterIdD := none,
                                  WalletAddress := none } }] }) := by
  refine ⟨rfl, ?_⟩
  intro hcap hcd hw
  have hs₁ := appendIdentifier_below s
    { userId := userID,
      identifiers := (none : Option Identifiers).getD emptyIdentifiers }
    srCap hcap
  rw [setIdentifiers_eq, hs₁, flush_pending_noop
    { s with
        identifierQueue := s.identifierQueue ++
          [{ userId := userID,
             identifiers := (none : Option Identifiers).getD
               emptyIdentifiers }] }
    now srFlush hcd hw]
  rfl

/-- Witness for C10: nil identifiers on a small idle client appends the
all-absent record. -/
theorem setIdentifiers_nil_safe_witness :
    (queueSize (baseState 5 10 0 (some 10)) + 1 <
      (baseState 5 10 0 (some 10)).batchSize) ∧
    (3 - (baseState 5 10 0 (some 10)).lastFlush <
      (baseState 5 10 0 (some 10)).flushCooldown) ∧
    ((baseState 5 10 0 (some 10)).flushWaiting.isSome) ∧
    setIdentifiers (baseState 5 10 0 (some 10)) 3 "u1" none
        (Except.ok ()) (Except.ok ()) =
      { baseState 5 10 0 (some 10) with
          identifierQueue :=
            (baseState 5 10 0 (some 10)).identifierQueue ++
              [{ userId := "u1",
                 identifiers := { AppleID := none, DiscordID := none,
                                  Email := none, EpicGamesID := none,
                                  SteamID := none, TwitterIdD := none,
                                  WalletAddress := none } }] } := by
  refine ⟨by decide, by decide, by decide, ?_⟩
  exact (setIdentifiers_nil_safe (baseState 5 10 0 (some 10)) 3 "u1"
    (Except.ok ()) (Except.ok ())).2 (by decide) (by decide) (by decide)

/-- A single drain grows the send trace by at most one payload. -/
theorem process_sent_length (s : ClientState) (sr : Except SendError Unit) :
    (process s sr).1.sent.length ≤ s.sent.length + 1 := by
  unfold process
  dsimp only
  split <;> simp

/-- Firing the deferred timer clears the handle and performs at most one
drain. -/
theorem flushWaitingFire_state (s : ClientState) (now : Nat)
    (sr : Except SendError Unit) :
    (flushWaitingFire s now sr).flushWaiting = none ∧
    (flushWaitingFire s now sr).sent.length ≤ s.sent.length + 1 := by
  unfold flushWaitingFire
  constructor
  · exact ((doProcess_state _ sr).2.2.2.2.1).trans
      ((process_state _ sr).2.2.2.1)
  · have h1 := (doProcess_state
      { s with lastFlush := now, flushWaiting := none } sr).2.2.1
    rw [h1]
    exact process_sent_length { s with lastFlush := now, flushWaiting := none } sr

/-- C1: for any nonempty burst of Flush calls issued while the cooldown
is active within one cooldown window (starting with no deferred flush
pending), every call returns success immediately and performs no drain
(queues, send trace, errors and `lastFlush` unchanged throughout); after
the first call exactly one deferred timer handle exists, scheduled for
`lastFlush + flushCooldown`, and it stays the unique handle through the
whole burst; a Flush arriving while it is pending is a pure no-op; and
firing that single timer clears it and performs at most one drain —
one eventual deferred drain for the whole burst, not one per call. -/
theorem flush_coalesces_during_cooldown (s : ClientState) (ts : List Nat)
    (sr : Except SendError Unit) (hw : s.flushWaiting = none)
    (hne : ts ≠ [])
    (hts : ∀ t ∈ ts, s.lastFlush ≤ t ∧ t - s.lastFlush < s.flushCooldown) :
    (∀ r ∈ (flushSeq s ts sr).2, r = Except.ok ()) ∧
    (∀ s' ∈ (flushSeq s ts sr).1,
      s'.eventQueue = s.eventQueue ∧
      s'.identifierQueue = s.identifierQueue ∧
      s'.sent = s.sent ∧
      s'.errors = s.errors ∧
      s'.lastFlush = s.lastFlush ∧
      s'.flushWaiting = some (s.lastFlush + s.flushCooldown)) ∧
    (∀ s' ∈ (flushSeq s ts sr).1, ∀ (u : Nat) (sr' : Except SendError Unit),
      u - s.lastFlush < s.flushCooldown →
      flush s' u sr' = (s', Except.ok ())) ∧
    (∀ s' ∈ (flushSeq s ts sr).1, ∀ (u : Nat) (sr' : Except SendError Unit),
      (flushWaitingFire s' u sr').flushWaiting = none ∧
      (flushWaitingFire s' u sr').sent.length ≤ s.sent.length + 1) := by
  rcases ts with _ | ⟨t, rest⟩
  · exact absurd rfl hne
  · have ht := hts t (List.mem_cons_self t rest)
    have h1 : flush s t sr =
        ({ s with flushWaiting := some (s.lastFlush + s.flushCooldown) },
          Except.ok ()) :=
      flush_schedule s t sr ht.1 ht.2 hw
    have h2 : flushSeq
        { s with flushWaiting := some (s.lastFlush + s.flushCooldown) }
        rest sr =
        (List.replicate rest.length
          { s with flushWaiting := some (s.lastFlush + s.flushCooldown) },
          List.replicate rest.length (Except.ok ())) :=
      flushSeq_pending sr rest _ (by simp)
        (fun u hu => (hts u (List.mem_cons_of_mem t hu)).2)
    have hseq : flushSeq s (t :: rest) sr =
        ({ s with flushWaiting := some (s.lastFlush + s.flushCooldown) } ::
          List.replicate rest.length
            { s with flushWaiting := some (s.lastFlush + s.flushCooldown) },
          Except.ok () ::
            List.replicate rest.length (Except.ok ())) := by
      simp only [flushSeq, h1, h2]
    refine ⟨?_, ?_, ?_, ?_⟩
    · intro r hr
      rw [hseq] at hr
      rcases List.mem_cons.mp hr with h | h
      · exact h
      · exact List.eq_of_mem_replicate h
    · intro s' hs'
      rw [hseq] at hs'
      have heq : s' =
          { s with flushWaiting := some (s.lastFlush + s.flushCooldown) } := by
        rcases List.mem_cons.mp hs' with h | h
        · exact h
        · exact List.eq_of_mem_replicate h
      subst heq
      exact ⟨rfl, rfl, rfl, rfl, rfl, rfl⟩
    · intro s' hs' u sr' hu
      rw [hseq] at hs'
      have heq : s' =
          { s with flushWaiting := some (s.lastFlush + s.flushCooldown) } := by
        rcases List.mem_cons.mp hs' with h | h
        · exact h
        · exact List.eq_of_mem_replicate h
      subst heq
      exact flush_pending_noop _ u sr' hu (by simp)
    · intro s' hs' u sr'
      rw [hseq] at hs'
      have heq : s' =
          { s with flushWaiting := some (s.lastFlush + s.flushCooldown) } := by
        rcases List.mem_cons.mp hs' with h | h
        · exact h
        · exact List.eq_of_mem_replicate h
      subst heq
      exact flushWaitingFire_state _ u sr'

/-- Witness for C1: two Flush calls inside one cooldown window leave a
single pending timer scheduled for the window's end. -/
theorem flush_coalesces_during_cooldown_witness :
    ((baseState 5 10 0 none).flushWaiting = none) ∧
    (([3, 4] : List Nat) ≠ []) ∧
    (∀ t ∈ ([3, 4] : List Nat),
      (baseState 5 10 0 none).lastFlush ≤ t ∧
      t - (baseState 5 10 0 none).lastFlush <
        (baseState 5 10 0 none).flushCooldown) ∧
    (∀ s' ∈ (flushSeq (baseState 5 10 0 none) [3, 4] (Except.ok ())).1,
      s'.flushWaiting = some ((baseState 5 10 0 none).lastFlush +
        (baseState 5 10 0 none).flushCooldown)) := by
  refine ⟨rfl, by decide, by decide, ?_⟩
  intro s' hs'
  exact ((flush_coalesces_during_cooldown (baseState 5 10 0 none) [3, 4]
    (Except.ok ()) rfl (by decide) (by decide)).2.1 s' hs').2.2.2.2.2
